import Mathlib

/-
  Verification of the STIR macro analyst quantitative core.

  Shallow embedding of the repository's Python modules:
    - core/contracts.py        (parse_contract_code)
    - core/scenarios.py        (integrate_rnd_over_range, Simpson integration)
    - core/sabr_calibration.py (calculate_implied_vol, calibrate_sabr)
    - core/rates_engine.py     (calculate_time_to_expiry, interpolate_discount_rate)
    - core/rnd_engine.py       (generate_rnd)
    - core/stir_analysis.py    (analyze_stir_contract quote gates)

  Machine floats are embedded as exact rationals (ℚ) where the code is pure
  arithmetic, and as reals (ℝ) where a transcendental factor (exp) appears.
  External library calls (scipy CubicSpline / minimize, pysabr, py_vollib)
  are passed in as abstract function parameters; their *input validation*,
  where it decides a claim, is embedded explicitly and documented at the
  definition.  Fallible Python code (raise) is embedded as Except/Option.
-/

/-! ## core/contracts.py -/

/-- Embedding of the `month_map` dictionary lookup of `parse_contract_code`:
`month_map.get(month_code, 'Unknown')` is `(month_map c).getD "Unknown"`. -/
def month_map (c : Char) : Option String :=
  match c with
  | 'F' => some "January"
  | 'G' => some "February"
  | 'H' => some "March"
  | 'J' => some "April"
  | 'K' => some "May"
  | 'M' => some "June"
  | 'N' => some "July"
  | 'Q' => some "August"
  | 'U' => some "September"
  | 'V' => some "October"
  | 'X' => some "November"
  | 'Z' => some "December"
  | _ => none

/-- Python `str.upper` on the character list of a string (ASCII tickers). -/
def pyUpper (cs : List Char) : List Char := cs.map Char.toUpper

/-- Python `str.strip`: drop whitespace from both ends. -/
def pyStrip (cs : List Char) : List Char :=
  ((cs.dropWhile Char.isWhitespace).reverse.dropWhile Char.isWhitespace).reverse

/-- Embedding of `parse_contract_code` (core/contracts.py): uppercase and trim
the ticker; if at least 5 characters remain, decode character 3 through the
month map (default "Unknown") and build the year as the literal "202" followed
by character 4; otherwise return ("Unknown", "Unknown"). -/
def parse_contract_code (ticker : String) : String × String :=
  let t := pyStrip (pyUpper ticker.data)
  if 5 ≤ t.length then
    let month_code := t.getD 3 ' '
    let year_digit := t.getD 4 ' '
    ((month_map month_code).getD "Unknown", String.mk ('2' :: '0' :: '2' :: [year_digit]))
  else
    ("Unknown", "Unknown")

/-! ## core/scenarios.py -/

/-- Contribution of the interval pair starting at sample index i, as in
scipy's basic Simpson slice arithmetic: with (x0,y0), (x1,y1), (x2,y2) the
samples at indices i, i+1, i+2 and h0, h1 the two interval widths, the pair
contributes (h0+h1)/6 · (y0·(2−h1/h0) + y1·(h0+h1)²/(h0·h1) + y2·(2−h0/h1)). -/
def simpsonTriple (samples : List (ℚ × ℚ)) (i : ℕ) : ℚ :=
  let p0 := samples.getD i (0, 0)
  let p1 := samples.getD (i + 1) (0, 0)
  let p2 := samples.getD (i + 2) (0, 0)
  let h0 := p1.1 - p0.1
  let h1 := p2.1 - p1.1
  (h0 + h1) / 6 *
    (p0.2 * (2 - h1 / h0) + p1.2 * ((h0 + h1) ^ 2 / (h0 * h1)) + p2.2 * (2 - h0 / h1))

/-- Composite Simpson rule over consecutive interval pairs for irregularly
spaced sample points: the sum of `simpsonTriple` over start indices
0, 2, 4, …, covering ⌊(n−1)/2⌋ pairs.  A trailing single interval (even
sample count) contributes nothing here; `simpson` adds scipy's correction
term for it. -/
def simpsonPairs (samples : List (ℚ × ℚ)) : ℚ :=
  ((List.range ((samples.length - 1) / 2)).map fun j => simpsonTriple samples (2 * j)).sum

/-- Embedding of `scipy.integrate.simpson(y, x=x)` on the zipped sample list:
fewer than two points integrate to 0; exactly two points fall back to the
trapezoid rule; an odd number of points is composite Simpson over interval
pairs; an even number of points adds the Cartwright correction for the last
interval (current scipy default even-sample handling). -/
def simpson (samples : List (ℚ × ℚ)) : ℚ :=
  let n := samples.length
  if n < 2 then 0
  else if n = 2 then
    let p0 := samples.getD 0 (0, 0)
    let p1 := samples.getD 1 (0, 0)
    (p1.2 + p0.2) / 2 * (p1.1 - p0.1)
  else
    let base := simpsonPairs samples
    if n % 2 = 0 then
      let r := samples.reverse
      let pL := r.getD 0 (0, 0)
      let pM := r.getD 1 (0, 0)
      let pK := r.getD 2 (0, 0)
      let h1 := pL.1 - pM.1
      let h0 := pM.1 - pK.1
      let alpha := (2 * h1 ^ 2 + 3 * h0 * h1) / (6 * (h0 + h1))
      let beta := (h1 ^ 2 + 3 * h0 * h1) / (6 * h0)
      let eta := h1 ^ 3 / (6 * h0 * (h0 + h1))
      base + alpha * pL.2 + beta * pM.2 - eta * pK.2
    else base

/-- The boolean mask `(strikes >= min_rate) & (strikes <= max_rate)` applied
to the paired (strike, density) samples: numpy applies the same mask to both
arrays, which on equal-length arrays is filtering the zipped pairs on the
strike component. -/
def maskInRange (strikes density : List ℚ) (min_rate max_rate : ℚ) : List (ℚ × ℚ) :=
  (strikes.zip density).filter fun p => decide (min_rate ≤ p.1) && decide (p.1 ≤ max_rate)

/-- Embedding of `integrate_rnd_over_range` (core/scenarios.py): mask to the
points whose strike lies in [min_rate, max_rate] inclusive; if more than one
point survives, integrate the filtered density against the filtered strikes
by Simpson's rule, otherwise return 0.0. -/
def integrate_rnd_over_range (strikes density : List ℚ) (min_rate max_rate : ℚ) : ℚ :=
  let filtered := maskInRange strikes density min_rate max_rate
  if 1 < filtered.length then simpson filtered else 0

/-- Decidable equality for embedded fallible results, so concrete runs of the
embedded functions can be checked by `decide`. -/
instance {ε α : Type} [DecidableEq ε] [DecidableEq α] : DecidableEq (Except ε α) :=
  fun x y =>
    match x, y with
    | .ok a, .ok b =>
        if h : a = b then isTrue (by rw [h]) else isFalse fun hc => h (Except.ok.inj hc)
    | .error a, .error b =>
        if h : a = b then isTrue (by rw [h]) else isFalse fun hc => h (Except.error.inj hc)
    | .ok _, .error _ => isFalse fun hc => Except.noConfusion hc
    | .error _, .ok _ => isFalse fun hc => Except.noConfusion hc

/-! ## core/sabr_calibration.py -/

/-- The `SABRParameters` dataclass, polymorphic in the number type so the
same record serves the rational calibration embedding and the real-valued
RND embedding. -/
structure SABRParameters (α : Type) where
  alpha : α
  rho : α
  volvol : α
  beta : α
  atm_vol : α
  tau : α
  rfr : α
  forward : α
deriving DecidableEq

/-- Shape of the external `py_vollib.black.implied_volatility.implied_volatility`
solver: arguments in source order (price, F, K, r, t, flag); `none` models the
exception paths (price outside arbitrage-free bounds, non-convergence). -/
def IvSolver : Type := ℚ → ℚ → ℚ → ℚ → ℚ → Char → Option ℚ

/-- Embedding of `calculate_implied_vol` (core/sabr_calibration.py): map the
option type to the one-letter flag ('c' for "call", else 'p'), call the
solver inside try/except, return iv·100 on success and the sentinel 0.0 on
any solver exception. -/
def calculate_implied_vol (solver : IvSolver) (option_price underlying_price strike tau rfr : ℚ)
    (option_type : String) : ℚ :=
  let flag := if option_type = "call" then 'c' else 'p'
  match solver option_price underlying_price strike rfr tau flag with
  | some iv => iv * 100
  | none => 0

/-- Input validation performed by `scipy.interpolate.CubicSpline(x, y)`, the
first statement of `calibrate_sabr` that can raise: x and y must have the same
length, x must hold at least 2 points, and x must be strictly increasing
(scipy raises ValueError otherwise; with 2 or 3 points and the default
not-a-knot boundary it fits a line or parabola without error). -/
def cubicSplineOk (xs ys : List ℚ) : Bool :=
  decide (2 ≤ xs.length) && decide (ys.length = xs.length) && decide (xs.Chain' (· < ·))

/-- Embedding of `calibrate_sabr` (core/sabr_calibration.py).  The external
numerics are parameters: `splineEval x y t` is `CubicSpline(x, y)(t)` (which
extrapolates silently outside the strike range), `ln2n` is pysabr's
`shifted_lognormal_to_normal`, and `sabrFit f t beta x y` is
`Hagan2002LognormalSABR(f=f, t=t, beta=beta).fit(x, y)`, a least-squares
minimizer that returns (alpha, rho, volvol) for any sample count without
raising.  The only failure path of the source function is the CubicSpline
input validation, embedded as `cubicSplineOk`. -/
def calibrate_sabr (splineEval : List ℚ → List ℚ → ℚ → ℚ)
    (ln2n : ℚ → ℚ → ℚ → ℚ → ℚ → ℚ)
    (sabrFit : ℚ → ℚ → ℚ → List ℚ → List ℚ → ℚ × ℚ × ℚ)
    (forward : ℚ) (strikes market_vols : List ℚ) (tau rfr beta : ℚ) :
    Except String (SABRParameters ℚ) :=
  if cubicSplineOk strikes market_vols then
    let atm_ln_vol := splineEval strikes market_vols forward / 100
    let atm_n_vol := ln2n forward forward 0 tau atm_ln_vol
    let fit := sabrFit forward tau beta strikes market_vols
    .ok ⟨fit.1, fit.2.1, fit.2.2, beta, atm_n_vol, tau, rfr, forward⟩
  else
    .error "x must be strictly increasing"

/-! ## core/rates_engine.py: dates and time to expiry -/

/-- Proleptic Gregorian leap-year rule, as used by Python's datetime. -/
def isLeapYear (y : ℕ) : Bool :=
  (y % 4 = 0 && y % 100 ≠ 0) || y % 400 = 0

/-- Number of days of month m (1-12) of year y. -/
def daysInMonth (y m : ℕ) : ℕ :=
  if m = 2 then (if isLeapYear y then 29 else 28)
  else if m = 4 ∨ m = 6 ∨ m = 9 ∨ m = 11 then 30
  else 31

/-- Number of days of year y. -/
def daysInYear (y : ℕ) : ℕ := if isLeapYear y then 366 else 365

/-- Days of the months of year y strictly before month m. -/
def daysBeforeMonth (y : ℕ) : ℕ → ℕ
  | 0 => 0
  | m + 1 => daysBeforeMonth y m + (if m = 0 then 0 else daysInMonth y m)

/-- Days of the years strictly before year y (proleptic, from year 0; the
additive offset against Python's `date.toordinal` cancels in differences). -/
def daysBeforeYear : ℕ → ℕ
  | 0 => 0
  | y + 1 => daysBeforeYear y + daysInYear y

/-- A calendar date as Python's `datetime.date` holds it. -/
structure Date where
  year : ℕ
  month : ℕ
  day : ℕ
deriving DecidableEq

/-- Day number of a date; differences of this function are exactly the `.days`
of Python date subtraction. -/
def toOrdinal (d : Date) : ℕ :=
  daysBeforeYear d.year + daysBeforeMonth d.year d.month + d.day

/-- Lexicographic order on dates, the order `datetime.date` comparison uses. -/
def dateLt (a b : Date) : Prop :=
  a.year < b.year ∨ (a.year = b.year ∧
    (a.month < b.month ∨ (a.month = b.month ∧ a.day < b.day)))

instance : DecidablePred fun p : Date × Date => dateLt p.1 p.2 := by
  intro p; unfold dateLt; infer_instance

instance (a b : Date) : Decidable (dateLt a b) := by
  unfold dateLt; infer_instance

/-- Value of a decimal digit string. -/
def digitsToNat (cs : List Char) : ℕ :=
  cs.foldl (fun a c => 10 * a + (c.toNat - 48)) 0

/-- Embedding of `datetime.strptime(s, "%Y%m%d").date()`: eight digits, of
which the first four are the year (datetime requires 1 ≤ year ≤ 9999), then
a valid month and a valid day of that month; anything else raises, modelled
as `none`. -/
def parseDate (s : String) : Option Date :=
  let cs := s.data
  if cs.length = 8 ∧ cs.all Char.isDigit then
    let y := digitsToNat (cs.take 4)
    let m := digitsToNat ((cs.drop 4).take 2)
    let d := digitsToNat (cs.drop 6)
    if 1 ≤ y ∧ 1 ≤ m ∧ m ≤ 12 ∧ 1 ≤ d ∧ d ≤ daysInMonth y m then
      some ⟨y, m, d⟩
    else none
  else none

/-- Embedding of `calculate_time_to_expiry` (core/rates_engine.py) on the
string path: parse both YYYYMMDD dates, subtract as dates (`delta.days`),
and divide the day count by 365.0.  No ordering check is performed. -/
def calculate_time_to_expiry (start_date expiry_date : String) : Option (ℤ × ℚ) :=
  match parseDate start_date, parseDate expiry_date with
  | some s, some e =>
      let days : ℤ := (toOrdinal e : ℤ) - (toOrdinal s : ℤ)
      some (days, (days : ℚ) / 365)
  | _, _ => none

/-! ## core/rates_engine.py: discount curve cleaning and interpolation -/

/-- One row of the input curve DataFrame; `none` in a field models a missing
value or a value that `pd.to_numeric(errors="coerce")` turns into NaN. -/
structure CurveRow where
  dte : Option ℚ
  rate : Option ℚ
deriving DecidableEq

/-- The row survives `dropna` and numeric coercion: both fields numeric. -/
def rowVal (r : CurveRow) : Option (ℚ × ℚ) :=
  match r.dte, r.rate with
  | some d, some v => some (d, v)
  | _, _ => none

/-- Rows that survive cleaning before aggregation: numeric in both columns
and strictly positive DTE (`df[df['DTE'] > 0]`). -/
def cleanRows (rows : List CurveRow) : List (ℚ × ℚ) :=
  (rows.filterMap rowVal).filter fun p => decide (0 < p.1)

/-- Mean RATE of the group of cleaned rows sharing the DTE key d
(`groupby('DTE')['RATE'].mean()`). -/
def groupMean (ps : List (ℚ × ℚ)) (d : ℚ) : ℚ :=
  let g := ps.filter fun p => decide (p.1 = d)
  (g.map Prod.snd).sum / g.length

/-- The distinct DTE keys of the cleaned rows in increasing order
(groupby keys, then `sort_values('DTE')`; keys are unique, so any correct
sort yields the same list). -/
def curveKeys (ps : List (ℚ × ℚ)) : List ℚ :=
  ((ps.map Prod.fst).dedup).insertionSort (· ≤ ·)

/-- The cleaned, aggregated, sorted curve: one (DTE, mean RATE) point per
distinct DTE key. -/
def cleanCurve (rows : List CurveRow) : List (ℚ × ℚ) :=
  let ps := cleanRows rows
  (curveKeys ps).map fun d => (d, groupMean ps d)

/-- Embedding of `interpolate_discount_rate` (core/rates_engine.py).
`spline pts t` stands for the external `CubicSpline(x, y)(t)` evaluation on
the cleaned points.  After cleaning: fewer than 2 points raise ValueError
(embedded as `.error` with the source's message); a target at or below the
minimum DTE returns the first row's rate, at or above the maximum DTE the
last row's rate; otherwise the spline is evaluated at the target. -/
def interpolate_discount_rate (spline : List (ℚ × ℚ) → ℚ → ℚ)
    (rows : List CurveRow) (target_dte : ℚ) : Except String ℚ :=
  let pts := cleanCurve rows
  if pts.length < 2 then
    .error ("Not enough points to build curve after cleaning: " ++
      toString pts.length ++ " rows")
  else
    let dte_min := ((pts.map Prod.fst).min?).getD 0
    let dte_max := ((pts.map Prod.fst).max?).getD 0
    if target_dte ≤ dte_min then .ok (pts.getD 0 (0, 0)).2
    else if dte_max ≤ target_dte then .ok (pts.getD (pts.length - 1) (0, 0)).2
    else .ok (spline pts target_dte)

/-! ## core/rnd_engine.py -/

/-- Embedding of `np.linspace(a, b, n)`: n points from a to b inclusive with
constant step (b−a)/(n−1); real arithmetic makes numpy's explicit endpoint
assignment `y[-1] = stop` the same value. -/
noncomputable def linspace (a b : ℝ) (n : ℕ) : List ℝ :=
  (List.range n).map fun i : ℕ => a + (i : ℝ) * ((b - a) / ((n : ℝ) - 1))

/-- Embedding of `np.gradient(y, x)` with default edge_order=1: one-sided
first differences at the two boundaries, and for each interior point the
second-order irregular-spacing formula a·y[i−1] + b·y[i] + c·y[i+1] with
a = −hs/(hd(hd+hs)), b = (hs−hd)/(hd·hs), c = hd/(hs(hd+hs)) where
hd = x[i]−x[i−1] and hs = x[i+1]−x[i]. -/
noncomputable def npGradient (y x : List ℝ) : List ℝ :=
  let n := y.length
  (List.range n).map fun i =>
    if i = 0 then
      (y.getD 1 0 - y.getD 0 0) / (x.getD 1 0 - x.getD 0 0)
    else if i = n - 1 then
      (y.getD (n - 1) 0 - y.getD (n - 2) 0) / (x.getD (n - 1) 0 - x.getD (n - 2) 0)
    else
      let hd := x.getD i 0 - x.getD (i - 1) 0
      let hs := x.getD (i + 1) 0 - x.getD i 0
      (-hs / (hd * (hd + hs))) * y.getD (i - 1) 0 +
        ((hs - hd) / (hd * hs)) * y.getD i 0 +
        (hd / (hs * (hd + hs))) * y.getD (i + 1) 0

/-- Embedding of `generate_rnd` (core/rnd_engine.py).  `callPrice p k` stands
for the external per-strike pricing of the source loop body: the Hagan 2002
lognormal SABR vol at strike k under parameters p, fed into Black-76
(`black.lognormal_call`).  The function builds the linspace strike grid, maps
the pricing over it, takes `np.gradient` twice, and scales the second
gradient by exp(tau·rfr). -/
noncomputable def generate_rnd (callPrice : SABRParameters ℝ → ℝ → ℝ)
    (sabr_params : SABRParameters ℝ) (min_strike max_strike : ℝ) (grid_points : ℕ) :
    List ℝ × List ℝ :=
  let strikes := linspace min_strike max_strike grid_points
  let bs_calls := strikes.map (callPrice sabr_params)
  let first_grad := npGradient bs_calls strikes
  let second_grad := npGradient first_grad strikes
  let rnd := second_grad.map fun v => v * Real.exp (sabr_params.tau * sabr_params.rfr)
  (strikes, rnd)

/-! ## core/stir_analysis.py: the orchestrator's quote gates -/

/-- One row of the option-settlement DataFrame the orchestrator works on
(columns STRIKE, OPTION_TYPE, SETTLEMENT). -/
structure OptionQuote where
  strike : ℚ
  option_type : String
  settlement : ℚ
deriving DecidableEq

/-- The rows surviving the settlement floor
(`opt_df[opt_df['SETTLEMENT'] >= min_settlement_price]`). -/
def settleFiltered (opt_rows : List OptionQuote) (min_settlement_price : ℚ) :
    List OptionQuote :=
  opt_rows.filter fun r => decide (min_settlement_price ≤ r.settlement)

/-- Each surviving row paired with its implied vol, as the orchestrator's
per-row `calculate_implied_vol` loop builds the IVOL column. -/
def withImpliedVols (solver : IvSolver) (rows : List OptionQuote)
    (fut_settle tau rfr : ℚ) : List (OptionQuote × ℚ) :=
  rows.map fun r =>
    (r, calculate_implied_vol solver r.settlement fut_settle r.strike tau rfr r.option_type)

/-- The rows surviving the sentinel filter (`opt_df[opt_df['IVOL'] > 0]`). -/
def ivFiltered (solver : IvSolver) (rows : List OptionQuote)
    (fut_settle tau rfr : ℚ) : List (OptionQuote × ℚ) :=
  (withImpliedVols solver rows fut_settle tau rfr).filter fun p => decide (0 < p.2)

/-- Embedding of the quote-gated core of `analyze_stir_contract`
(core/stir_analysis.py), from the fetched option settlements through SABR
calibration.  The external market-data fetches (settlement, chain, curve,
expiry) are collaborator calls whose results (`opt_rows`, `fut_settle`,
`tau`, `rfr`) arrive as arguments; the downstream RND/scenario stage does not
raise and is outside the gates this embedding serves.  Gate 1: fewer than 5
rows at or above the settlement floor raise.  Gate 2: fewer than 5 rows with
strictly positive implied vol raise.  Only then is `calibrate_sabr` run on
the surviving strikes and vols. -/
def analyze_stir_contract (splineEval : List ℚ → List ℚ → ℚ → ℚ)
    (ln2n : ℚ → ℚ → ℚ → ℚ → ℚ → ℚ)
    (sabrFit : ℚ → ℚ → ℚ → List ℚ → List ℚ → ℚ × ℚ × ℚ)
    (solver : IvSolver) (opt_rows : List OptionQuote)
    (fut_settle tau rfr min_settlement_price : ℚ) :
    Except String (SABRParameters ℚ) :=
  let opt1 := settleFiltered opt_rows min_settlement_price
  if opt1.length < 5 then
    .error ("Insufficient options: only " ++ toString opt1.length ++
      " with settlement >= " ++ toString min_settlement_price)
  else
    let opt2 := ivFiltered solver opt1 fut_settle tau rfr
    if opt2.length < 5 then
      .error "Insufficient options after IV calculation"
    else
      calibrate_sabr splineEval ln2n sabrFit fut_settle
        (opt2.map fun p => p.1.strike) (opt2.map fun p => p.2) tau rfr (1 / 2)

/-! # Theorems -/

/-! ## Claim C9: contract code parsing -/

/-- Claim C9: `parse_contract_code "SFRZ6"` returns ("December", "2026") under
the fixed-decade convention; every input whose uppercased, trimmed form is
shorter than 5 characters yields ("Unknown", "Unknown") without raising; and
the function is total with an unrecognized month code yielding the month
"Unknown" while the year is still decoded as "202" plus the fifth
character. -/
theorem C9_parse_contract_code :
    parse_contract_code "SFRZ6" = ("December", "2026") ∧
    (∀ s : String, (pyStrip (pyUpper s.data)).length < 5 →
      parse_contract_code s = ("Unknown", "Unknown")) ∧
    (∀ s : String, 5 ≤ (pyStrip (pyUpper s.data)).length →
      month_map ((pyStrip (pyUpper s.data)).getD 3 ' ') = none →
      parse_contract_code s =
        ("Unknown",
          String.mk ('2' :: '0' :: '2' :: [(pyStrip (pyUpper s.data)).getD 4 ' ']))) := by
  refine ⟨by decide, ?_, ?_⟩
  · intro s h
    unfold parse_contract_code
    rw [if_neg (by omega)]
  · intro s h hm
    unfold parse_contract_code
    rw [if_pos h]
    simp only [hm, Option.getD_none]

/-- Concrete instances of C9: a length-3 ticker and an unknown month code. -/
theorem C9_parse_contract_code_witness :
    parse_contract_code "XYZ" = ("Unknown", "Unknown") ∧
    parse_contract_code "SFRA6" =
      ("Unknown",
        String.mk ('2' :: '0' :: '2' :: [(pyStrip (pyUpper "SFRA6".data)).getD 4 ' '])) :=
  ⟨C9_parse_contract_code.2.1 "XYZ" (by decide),
   C9_parse_contract_code.2.2 "SFRA6" (by decide) (by decide)⟩

/-! ## Claim C6: implied-vol solver sentinel policy -/

/-- Claim C6: `calculate_implied_vol` never propagates an exception: when the
Black inversion (the external solver, called with the flag 'c' for "call"
and 'p' otherwise) succeeds with vol iv it returns iv·100, and when the
inversion fails it returns the sentinel 0.0 instead of raising. -/
theorem C6_calculate_implied_vol (solver : IvSolver)
    (option_price underlying_price strike tau rfr : ℚ) (option_type : String) :
    (∀ iv, solver option_price underlying_price strike rfr tau
        (if option_type = "call" then 'c' else 'p') = some iv →
      calculate_implied_vol solver option_price underlying_price strike tau rfr option_type
        = iv * 100) ∧
    (solver option_price underlying_price strike rfr tau
        (if option_type = "call" then 'c' else 'p') = none →
      calculate_implied_vol solver option_price underlying_price strike tau rfr option_type
        = 0) := by
  constructor
  · intro iv h
    unfold calculate_implied_vol
    simp only [h]
  · intro h
    unfold calculate_implied_vol
    simp only [h]

/-- Concrete instances of C6: a succeeding solver and a failing solver. -/
theorem C6_calculate_implied_vol_witness :
    calculate_implied_vol (fun _ _ _ _ _ _ => some 2) 1 1 1 1 0 "call" = 2 * 100 ∧
    calculate_implied_vol (fun _ _ _ _ _ _ => none) 1 1 1 1 0 "put" = 0 :=
  ⟨(C6_calculate_implied_vol (fun _ _ _ _ _ _ => some 2) 1 1 1 1 0 "call").1 2 rfl,
   (C6_calculate_implied_vol (fun _ _ _ _ _ _ => none) 1 1 1 1 0 "put").2 rfl⟩

/-! ## Claim C7: SABR calibration with fewer than 3 distinct strikes -/

/-- Claim C7 is false as stated: the source `calibrate_sabr` contains no
distinct-strike count check.  A strictly increasing two-point strike list
(fewer than 3 distinct values) passes the spline's input validation, so
calibration returns a parameter bundle instead of raising. -/
theorem C7_two_strike_counterexample :
    ([1, 2] : List ℚ).dedup.length < 3 ∧
    calibrate_sabr (fun _ _ _ => 0) (fun _ _ _ _ _ => 0) (fun _ _ _ _ _ => (0, 0, 0))
      1 [1, 2] [5, 5] 1 0 (1 / 2) = .ok ⟨0, 0, 0, 1 / 2, 0, 1, 0, 1⟩ := by
  constructor
  · decide
  · norm_num [calibrate_sabr, cubicSplineOk]

/-- Claim C7 amended: `calibrate_sabr` performs no ≥3-distinct-strikes check;
it raises exactly when the strike and vol arrays violate the cubic-spline
precondition — fewer than 2 strike points, mismatched array lengths, or a
strike sequence that is not strictly increasing.  In particular duplicate or
unsorted strikes raise, but exactly 2 distinct increasing strikes calibrate
and return a SABRParameters bundle. -/
theorem C7_calibrate_sabr_failure (splineEval : List ℚ → List ℚ → ℚ → ℚ)
    (ln2n : ℚ → ℚ → ℚ → ℚ → ℚ → ℚ)
    (sabrFit : ℚ → ℚ → ℚ → List ℚ → List ℚ → ℚ × ℚ × ℚ)
    (forward : ℚ) (strikes market_vols : List ℚ) (tau rfr beta : ℚ) :
    (∃ m, calibrate_sabr splineEval ln2n sabrFit forward strikes market_vols tau rfr beta
        = .error m) ↔
    ¬ (2 ≤ strikes.length ∧ market_vols.length = strikes.length ∧
        strikes.Chain' (· < ·)) := by
  have hok : cubicSplineOk strikes market_vols = true ↔
      (2 ≤ strikes.length ∧ market_vols.length = strikes.length ∧
        strikes.Chain' (· < ·)) := by
    simp [cubicSplineOk, and_assoc]
  by_cases h : 2 ≤ strikes.length ∧ market_vols.length = strikes.length ∧
      strikes.Chain' (· < ·)
  · simp [calibrate_sabr, hok.mpr h, h]
  · have hf : cubicSplineOk strikes market_vols = false := by
      rcases Bool.eq_false_or_eq_true (cubicSplineOk strikes market_vols) with hb | hb
      · exact absurd (hok.mp hb) h
      · exact hb
    simp [calibrate_sabr, hf, h]

/-- Concrete instance of the amended C7: duplicate strikes make the spline
precondition fail, so calibration raises. -/
theorem C7_calibrate_sabr_failure_witness :
    ∃ m, calibrate_sabr (fun _ _ _ => 0) (fun _ _ _ _ _ => 0) (fun _ _ _ _ _ => (0, 0, 0))
      1 [1, 1, 2] [5, 5, 5] 1 0 (1 / 2) = .error m :=
  (C7_calibrate_sabr_failure (fun _ _ _ => 0) (fun _ _ _ _ _ => 0)
      (fun _ _ _ _ _ => (0, 0, 0)) 1 [1, 1, 2] [5, 5, 5] 1 0 (1 / 2)).mpr
    (by norm_num [List.chain'_cons])

/-! ## Claim C2: density integration over a rate range -/

/-- The strike components of a zipped sample list form a sublist of the
strike array (numpy masks both arrays with the same boolean mask). -/
theorem map_fst_zip_sublist :
    ∀ (l₁ l₂ : List ℚ), ((l₁.zip l₂).map Prod.fst).Sublist l₁
  | [], _ => by simp
  | _ :: _, [] => by simp
  | a :: t₁, _ :: t₂ => by
      simpa [List.zip_cons_cons] using (map_fst_zip_sublist t₁ t₂).cons₂ a

/-- A list that is strictly increasing yet constant has at most one
element. -/
theorem length_le_one_of_pairwise_lt_of_const {l : List ℚ} {a : ℚ}
    (hp : l.Pairwise (· < ·)) (hc : ∀ x ∈ l, x = a) : l.length ≤ 1 := by
  match l with
  | [] => simp
  | [_] => simp
  | x :: y :: t =>
    exfalso
    have h1 : x < y := (List.pairwise_cons.mp hp).1 y (by simp)
    rw [hc x (by simp), hc y (by simp)] at h1
    exact lt_irrefl a h1

/-- Under a strictly increasing strike grid, at most one masked sample can sit
at a single rate value. -/
theorem maskInRange_degenerate_length (strikes density : List ℚ) (a : ℚ)
    (hs : strikes.Chain' (· < ·)) :
    (maskInRange strikes density a a).length ≤ 1 := by
  have h1 : (maskInRange strikes density a a).Sublist (strikes.zip density) :=
    List.filter_sublist _
  have hsub : ((maskInRange strikes density a a).map Prod.fst).Sublist strikes :=
    (h1.map Prod.fst).trans (map_fst_zip_sublist strikes density)
  have hpw : ((maskInRange strikes density a a).map Prod.fst).Pairwise (· < ·) :=
    (List.chain'_iff_pairwise.mp hs).sublist hsub
  have hconst : ∀ x ∈ (maskInRange strikes density a a).map Prod.fst, x = a := by
    intro x hx
    rcases List.mem_map.mp hx with ⟨p, hp, rfl⟩
    have := List.of_mem_filter hp
    simp only [Bool.and_eq_true, decide_eq_true_eq] at this
    exact le_antisymm this.2 this.1
  have := length_le_one_of_pairwise_lt_of_const hpw hconst
  simpa using this

/-- Claim C2: the density integrator selects exactly the points with
min_rate ≤ strike ≤ max_rate (both endpoints inclusive) and returns the
Simpson's-rule integral of the density over those points; whenever fewer than
2 points fall in the interval it returns exactly 0.0 without raising — in
particular for every degenerate interval with min_rate = max_rate over a
strictly increasing strike grid. -/
theorem C2_integrate_rnd_over_range (strikes density : List ℚ) (min_rate max_rate : ℚ) :
    (∀ p : ℚ × ℚ, p ∈ maskInRange strikes density min_rate max_rate ↔
        p ∈ strikes.zip density ∧ min_rate ≤ p.1 ∧ p.1 ≤ max_rate) ∧
    (1 < (maskInRange strikes density min_rate max_rate).length →
      integrate_rnd_over_range strikes density min_rate max_rate =
        simpson (maskInRange strikes density min_rate max_rate)) ∧
    ((maskInRange strikes density min_rate max_rate).length ≤ 1 →
      integrate_rnd_over_range strikes density min_rate max_rate = 0) ∧
    (strikes.Chain' (· < ·) →
      integrate_rnd_over_range strikes density min_rate min_rate = 0) := by
  refine ⟨?_, ?_, ?_, ?_⟩
  · intro p
    simp [maskInRange, List.mem_filter, and_assoc]
  · intro h
    unfold integrate_rnd_over_range
    rw [if_pos h]
  · intro h
    unfold integrate_rnd_over_range
    rw [if_neg (by omega)]
  · intro hs
    unfold integrate_rnd_over_range
    rw [if_neg (by have := maskInRange_degenerate_length strikes density min_rate hs; omega)]

/-- Concrete instances of C2: a 3-point mask integrates by Simpson's rule and
a degenerate interval returns exactly 0. -/
theorem C2_integrate_rnd_over_range_witness :
    integrate_rnd_over_range [1, 2, 3] [1, 1, 1] 0 4 =
      simpson (maskInRange [1, 2, 3] [1, 1, 1] 0 4) ∧
    integrate_rnd_over_range [1, 2, 3] [10, 10, 10] 2 2 = 0 :=
  ⟨(C2_integrate_rnd_over_range [1, 2, 3] [1, 1, 1] 0 4).2.1 (by decide),
   (C2_integrate_rnd_over_range [1, 2, 3] [10, 10, 10] 2 2).2.2.2
     (by norm_num [List.chain'_cons])⟩

/-! ## Claims C3, C4, C5: discount-curve cleaning and interpolation -/

/-- Folding min over a list bounded below by the accumulator returns the
accumulator. -/
theorem foldl_min_of_le {l : List ℚ} : ∀ {a : ℚ}, (∀ x ∈ l, a ≤ x) →
    l.foldl min a = a := by
  induction l with
  | nil => intro a _; rfl
  | cons x t ih =>
      intro a h
      have hax : a ≤ x := h x (by simp)
      simp only [List.foldl_cons, min_eq_left hax]
      exact ih fun y hy => h y (by simp [hy])

/-- The minimum of a nonempty sorted rational list is its first element. -/
theorem min?_of_sorted_getD {l : List ℚ} (h : l.Sorted (· ≤ ·)) (hne : l ≠ []) :
    l.min? = some (l.getD 0 0) := by
  match l with
  | x :: t =>
      simp only [List.min?, List.getD_cons_zero]
      rw [foldl_min_of_le fun y hy => (List.sorted_cons.mp h).1 y hy]

/-- A nonempty list's value at index length−1 is its last element. -/
theorem getD_length_sub_one_eq_getLast {α : Type} {l : List α} (d : α) (h : l ≠ []) :
    l.getD (l.length - 1) d = l.getLast h := by
  rw [List.getD_eq_getElem?_getD, ← List.getLast?_eq_getElem?,
    List.getLast?_eq_getLast l h]
  rfl

/-- Folding max over the sorted tail returns the last element. -/
theorem foldl_max_of_sorted {l : List ℚ} : ∀ {a : ℚ}, ((a :: l).Sorted (· ≤ ·)) →
    l.foldl max a = (a :: l).getLast (List.cons_ne_nil a l) := by
  induction l with
  | nil => intro a _; simp
  | cons y t ih =>
      intro a h
      have hay : a ≤ y := (List.sorted_cons.mp h).1 y (by simp)
      simp only [List.foldl_cons, max_eq_right hay]
      rw [ih (List.sorted_cons.mp h).2]
      exact (List.getLast_cons (List.cons_ne_nil y t)).symm

/-- The maximum of a nonempty sorted rational list is its value at index
length−1. -/
theorem max?_of_sorted_getD {l : List ℚ} (h : l.Sorted (· ≤ ·)) (hne : l ≠ []) :
    l.max? = some (l.getD (l.length - 1) 0) := by
  match l with
  | x :: t =>
      simp only [List.max?]
      rw [foldl_max_of_sorted h, getD_length_sub_one_eq_getLast 0 hne]

/-- The strike keys of the cleaned curve are exactly the sorted distinct DTE
keys. -/
theorem cleanCurve_map_fst (rows : List CurveRow) :
    (cleanCurve rows).map Prod.fst = curveKeys (cleanRows rows) := by
  simp only [cleanCurve, List.map_map]
  exact List.map_id _

/-- The cleaned curve's keys are sorted ascending. -/
theorem curveKeys_sorted (ps : List (ℚ × ℚ))  : (curveKeys ps).Sorted (· ≤ ·) :=
  List.sorted_insertionSort _ _

/-- The cleaned curve's keys are distinct. -/
theorem curveKeys_nodup (ps : List (ℚ × ℚ)) : (curveKeys ps).Nodup :=
  ((List.perm_insertionSort _ _).nodup_iff).mpr (List.nodup_dedup _)

/-- Indexing the strike keys agrees with indexing the curve points. -/
theorem getD_map_fst {l : List (ℚ × ℚ)} {i : ℕ} (h : i < l.length) :
    (l.map Prod.fst).getD i 0 = (l.getD i (0, 0)).1 := by
  rw [List.getD_eq_getElem?_getD, List.getD_eq_getElem?_getD, List.getElem?_map,
    List.getElem?_eq_getElem h]
  rfl

/-- In a sorted duplicate-free list of length at least 2 the first element is
strictly below the last. -/
theorem sorted_nodup_first_lt_last {l : List ℚ} (hs : l.Sorted (· ≤ ·))
    (hn : l.Nodup) (h2 : 2 ≤ l.length) :
    l.getD 0 0 < l.getD (l.length - 1) 0 := by
  match l with
  | x :: y :: t =>
      have hmem : (y :: t).getLast (List.cons_ne_nil y t) ∈ y :: t :=
        List.getLast_mem (List.cons_ne_nil y t)
      have hxle : x ≤ (y :: t).getLast (List.cons_ne_nil y t) :=
        (List.sorted_cons.mp hs).1 _ hmem
      have hxne : x ≠ (y :: t).getLast (List.cons_ne_nil y t) := by
        intro he
        exact (List.nodup_cons.mp hn).1 (he ▸ hmem)
      have hlen : (x :: y :: t).length - 1 = t.length + 1 := by simp
      have hgd : (x :: y :: t).getD ((x :: y :: t).length - 1) 0 =
          (y :: t).getLast (List.cons_ne_nil y t) := by
        rw [hlen, List.getD_cons_succ]
        have : t.length = (y :: t).length - 1 := by simp
        rw [this, getD_length_sub_one_eq_getLast 0 (List.cons_ne_nil y t)]
      rw [List.getD_cons_zero, hgd]
      exact lt_of_le_of_ne hxle hxne

/-- Claim C3: whenever cleaning leaves at least 2 points,
`interpolate_discount_rate` clamps — a target at or below the smallest clean
DTE returns exactly the first clean point's rate, a target at or above the
largest clean DTE returns exactly the last clean point's rate — and a target
strictly inside the clean range returns the cubic-spline value over all clean
points. -/
theorem C3_interpolate_clamping (spline : List (ℚ × ℚ) → ℚ → ℚ)
    (rows : List CurveRow) (target_dte : ℚ)
    (h2 : 2 ≤ (cleanCurve rows).length) :
    (target_dte ≤ ((cleanCurve rows).getD 0 (0, 0)).1 →
      interpolate_discount_rate spline rows target_dte =
        .ok ((cleanCurve rows).getD 0 (0, 0)).2) ∧
    (((cleanCurve rows).getD ((cleanCurve rows).length - 1) (0, 0)).1 ≤ target_dte →
      interpolate_discount_rate spline rows target_dte =
        .ok ((cleanCurve rows).getD ((cleanCurve rows).length - 1) (0, 0)).2) ∧
    (((cleanCurve rows).getD 0 (0, 0)).1 < target_dte →
      target_dte < ((cleanCurve rows).getD ((cleanCurve rows).length - 1) (0, 0)).1 →
      interpolate_discount_rate spline rows target_dte =
        .ok (spline (cleanCurve rows) target_dte)) := by
  have hlenmap : ((cleanCurve rows).map Prod.fst).length = (cleanCurve rows).length :=
    List.length_map _ _
  have hsorted : ((cleanCurve rows).map Prod.fst).Sorted (· ≤ ·) := by
    rw [cleanCurve_map_fst]; exact curveKeys_sorted _
  have hnodup : ((cleanCurve rows).map Prod.fst).Nodup := by
    rw [cleanCurve_map_fst]; exact curveKeys_nodup _
  have hne : (cleanCurve rows).map Prod.fst ≠ [] := by
    intro he
    have h0 := congrArg List.length he
    simp only [List.length_nil] at h0
    omega
  have hdmin : (((cleanCurve rows).map Prod.fst).min?).getD 0 =
      ((cleanCurve rows).getD 0 (0, 0)).1 := by
    rw [min?_of_sorted_getD hsorted hne, Option.getD_some, getD_map_fst (by omega)]
  have hdmax : (((cleanCurve rows).map Prod.fst).max?).getD 0 =
      ((cleanCurve rows).getD ((cleanCurve rows).length - 1) (0, 0)).1 := by
    rw [max?_of_sorted_getD hsorted hne, Option.getD_some, hlenmap,
      getD_map_fst (by omega)]
  have hflt : ((cleanCurve rows).getD 0 (0, 0)).1 <
      ((cleanCurve rows).getD ((cleanCurve rows).length - 1) (0, 0)).1 := by
    have := sorted_nodup_first_lt_last hsorted hnodup (by omega)
    rwa [getD_map_fst (by omega), hlenmap, getD_map_fst (by omega)] at this
  refine ⟨?_, ?_, ?_⟩
  · intro ht
    simp only [interpolate_discount_rate]
    rw [if_neg (by omega), hdmin, if_pos ht]
  · intro ht
    simp only [interpolate_discount_rate]
    rw [if_neg (by omega), hdmin, if_neg (by
      intro hc
      exact absurd (lt_of_lt_of_le hflt ht) (not_lt.mpr hc)), hdmax, if_pos ht]
  · intro h1 h
    simp only [interpolate_discount_rate]
    rw [if_neg (by omega), hdmin, if_neg (not_le.mpr h1), hdmax,
      if_neg (not_le.mpr h)]

/-- Concrete instances of C3: a two-point curve clamps at both ends and
evaluates the spline strictly inside. -/
theorem C3_interpolate_clamping_witness :
    interpolate_discount_rate (fun _ _ => 0)
        [⟨some 1, some 3⟩, ⟨some 5, some 10⟩] 0 =
      .ok ((cleanCurve [⟨some 1, some 3⟩, ⟨some 5, some 10⟩]).getD 0 (0, 0)).2 ∧
    interpolate_discount_rate (fun _ _ => 0)
        [⟨some 1, some 3⟩, ⟨some 5, some 10⟩] 9 =
      .ok ((cleanCurve [⟨some 1, some 3⟩, ⟨some 5, some 10⟩]).getD
        ((cleanCurve [⟨some 1, some 3⟩, ⟨some 5, some 10⟩]).length - 1) (0, 0)).2 ∧
    interpolate_discount_rate (fun _ _ => 0)
        [⟨some 1, some 3⟩, ⟨some 5, some 10⟩] 2 =
      .ok ((fun _ _ => (0 : ℚ)) (cleanCurve [⟨some 1, some 3⟩, ⟨some 5, some 10⟩]) 2) :=
  ⟨(C3_interpolate_clamping (fun _ _ => 0) _ 0 (by decide)).1 (by decide),
   (C3_interpolate_clamping (fun _ _ => 0) _ 9 (by decide)).2.1 (by decide),
   (C3_interpolate_clamping (fun _ _ => 0) _ 2 (by decide)).2.2 (by decide) (by decide)⟩

/-- Cleaning commutes with permutation of the input rows. -/
theorem cleanRows_perm {r1 r2 : List CurveRow} (h : r1.Perm r2) :
    (cleanRows r1).Perm (cleanRows r2) :=
  (h.filterMap rowVal).filter _

/-- The per-key mean is invariant under permutation of the cleaned rows. -/
theorem groupMean_perm {p1 p2 : List (ℚ × ℚ)} (h : p1.Perm p2) (d : ℚ) :
    groupMean p1 d = groupMean p2 d := by
  simp only [groupMean]
  have hf : (p1.filter fun p => decide (p.1 = d)).Perm
      (p2.filter fun p => decide (p.1 = d)) := h.filter _
  rw [(hf.map Prod.snd).sum_eq, hf.length_eq]

/-- The sorted distinct keys are invariant under permutation of the cleaned
rows. -/
theorem curveKeys_perm {p1 p2 : List (ℚ × ℚ)} (h : p1.Perm p2) :
    curveKeys p1 = curveKeys p2 := by
  unfold curveKeys
  have hd : ((p1.map Prod.fst).dedup).Perm ((p2.map Prod.fst).dedup) :=
    (h.map Prod.fst).dedup
  exact List.eq_of_perm_of_sorted
    (((List.perm_insertionSort _ _).trans hd).trans (List.perm_insertionSort _ _).symm)
    (List.sorted_insertionSort _ _) (List.sorted_insertionSort _ _)

/-- The whole cleaned curve is invariant under permutation of the input
rows. -/
theorem cleanCurve_perm {r1 r2 : List CurveRow} (h : r1.Perm r2) :
    cleanCurve r1 = cleanCurve r2 := by
  simp only [cleanCurve]
  rw [curveKeys_perm (cleanRows_perm h)]
  exact List.map_congr_left fun d _ => by
    rw [groupMean_perm (cleanRows_perm h)]

/-- Prepending a copy of a valid row whose day-group is rate-homogeneous
leaves the cleaned curve unchanged. -/
theorem cleanCurve_dup {rows : List CurveRow} {d v : ℚ}
    (hd : 0 < d)
    (hmem : (⟨some d, some v⟩ : CurveRow) ∈ rows)
    (hhom : ∀ p ∈ cleanRows rows, p.1 = d → p.2 = v) :
    cleanCurve (⟨some d, some v⟩ :: rows) = cleanCurve rows := by
  have hclean : cleanRows (⟨some d, some v⟩ :: rows) = (d, v) :: cleanRows rows := by
    simp [cleanRows, rowVal, hd]
  have hdv : (d, v) ∈ cleanRows rows := by
    refine List.mem_filter.mpr ⟨?_, by simp [hd]⟩
    exact List.mem_filterMap.mpr ⟨⟨some d, some v⟩, hmem, rfl⟩
  have hkey : d ∈ (cleanRows rows).map Prod.fst :=
    List.mem_map.mpr ⟨(d, v), hdv, rfl⟩
  have hkeys : curveKeys ((d, v) :: cleanRows rows) = curveKeys (cleanRows rows) := by
    unfold curveKeys
    rw [List.map_cons, List.dedup_cons_of_mem hkey]
  have hrepl : ((cleanRows rows).filter fun p => decide (p.1 = d)).map Prod.snd =
      List.replicate (((cleanRows rows).filter fun p => decide (p.1 = d)).length) v := by
    rw [List.eq_replicate_iff]
    refine ⟨by simp, ?_⟩
    intro b hb
    rcases List.mem_map.mp hb with ⟨p, hp, rfl⟩
    have hmf := List.mem_filter.mp hp
    exact hhom p hmf.1 (by simpa using hmf.2)
  have hnpos : 0 < ((cleanRows rows).filter fun p => decide (p.1 = d)).length := by
    have : (d, v) ∈ (cleanRows rows).filter fun p => decide (p.1 = d) :=
      List.mem_filter.mpr ⟨hdv, by simp⟩
    exact List.length_pos.mpr (List.ne_nil_of_mem this)
  have hmean : ∀ k, groupMean ((d, v) :: cleanRows rows) k = groupMean (cleanRows rows) k := by
    intro k
    by_cases hk : k = d
    · subst hk
      simp only [groupMean]
      rw [List.filter_cons_of_pos (by simp)]
      rw [List.map_cons, hrepl]
      set n := ((cleanRows rows).filter fun p => decide (p.1 = k)).length with hn
      rw [List.sum_cons, List.sum_replicate, List.length_cons, nsmul_eq_mul]
      have hne : (n : ℚ) ≠ 0 := Nat.cast_ne_zero.mpr (by omega)
      have hne1 : ((n : ℚ) + 1) ≠ 0 := by positivity
      push_cast
      field_simp
      ring
    · simp only [groupMean]
      rw [List.filter_cons_of_neg (by simpa using fun he => hk he.symm)]
  simp only [cleanCurve]
  rw [hclean, hkeys]
  exact List.map_congr_left fun k _ => by rw [hmean k]

/-- Claim C4 is false as stated: duplicating the row (DTE 1, RATE 0) of a
curve that also holds (DTE 1, RATE 2) shifts the day-1 mean from 1 to 2/3,
so the interpolated value at target 1 changes. -/
theorem C4_duplicate_counterexample :
    interpolate_discount_rate (fun _ _ => 0)
        [⟨some 1, some 0⟩, ⟨some 1, some 0⟩, ⟨some 1, some 2⟩, ⟨some 5, some 10⟩] 1 ≠
      interpolate_discount_rate (fun _ _ => 0)
        [⟨some 1, some 0⟩, ⟨some 1, some 2⟩, ⟨some 5, some 10⟩] 1 := by
  have h1 : interpolate_discount_rate (fun _ _ => 0)
      [⟨some 1, some 0⟩, ⟨some 1, some 2⟩, ⟨some 5, some 10⟩] 1 = .ok 1 := by
    norm_num [interpolate_discount_rate, cleanCurve, cleanRows, curveKeys, groupMean,
      rowVal, List.filterMap, List.filter, List.dedup, List.insertionSort,
      List.orderedInsert]
  have h2 : interpolate_discount_rate (fun _ _ => 0)
      [⟨some 1, some 0⟩, ⟨some 1, some 0⟩, ⟨some 1, some 2⟩, ⟨some 5, some 10⟩] 1 =
      .ok (2 / 3) := by
    norm_num [interpolate_discount_rate, cleanCurve, cleanRows, curveKeys, groupMean,
      rowVal, List.filterMap, List.filter, List.dedup, List.insertionSort,
      List.orderedInsert]
  rw [h1, h2]
  intro hc
  have := Except.ok.inj hc
  norm_num at this

/-- Claim C4 amended: `interpolate_discount_rate` is invariant under
permutation of the input rows for every input and target; and duplicating a
row (same days-to-expiry, identical rate) leaves the value unchanged provided
every clean row sharing that days-to-expiry carries that same rate.  Without
that homogeneity the duplicate shifts the group mean and the claim fails
(see the counterexample). -/
theorem C4_interpolate_invariance (spline : List (ℚ × ℚ) → ℚ → ℚ)
    (rows rows2 : List CurveRow) (target_dte : ℚ) :
    (rows.Perm rows2 →
      interpolate_discount_rate spline rows2 target_dte =
        interpolate_discount_rate spline rows target_dte) ∧
    (∀ d v : ℚ, 0 < d → (⟨some d, some v⟩ : CurveRow) ∈ rows →
      (∀ p ∈ cleanRows rows, p.1 = d → p.2 = v) →
      interpolate_discount_rate spline (⟨some d, some v⟩ :: rows) target_dte =
        interpolate_discount_rate spline rows target_dte) := by
  constructor
  · intro h
    unfold interpolate_discount_rate
    rw [cleanCurve_perm h.symm]
  · intro d v hd hmem hhom
    unfold interpolate_discount_rate
    rw [cleanCurve_dup hd hmem hhom]

/-- Concrete instances of the amended C4: reversing the rows and duplicating
the homogeneous day-1 row both leave the result unchanged. -/
theorem C4_interpolate_invariance_witness :
    interpolate_discount_rate (fun _ _ => 0)
        [⟨some 5, some 10⟩, ⟨some 1, some 3⟩] 2 =
      interpolate_discount_rate (fun _ _ => 0)
        [⟨some 1, some 3⟩, ⟨some 5, some 10⟩] 2 ∧
    interpolate_discount_rate (fun _ _ => 0)
        [⟨some 1, some 3⟩, ⟨some 1, some 3⟩, ⟨some 5, some 10⟩] 2 =
      interpolate_discount_rate (fun _ _ => 0)
        [⟨some 1, some 3⟩, ⟨some 5, some 10⟩] 2 :=
  ⟨(C4_interpolate_invariance (fun _ _ => 0)
      [⟨some 1, some 3⟩, ⟨some 5, some 10⟩]
      [⟨some 5, some 10⟩, ⟨some 1, some 3⟩] 2).1 (List.Perm.swap _ _ _).symm,
   (C4_interpolate_invariance (fun _ _ => 0)
      [⟨some 1, some 3⟩, ⟨some 5, some 10⟩] [] 2).2 1 3 (by decide) (by decide)
     (by decide)⟩

/-- Claim C5 is false only in its wording about the message: on a curve with
a single clean point the function raises with the exact source message, which
states the actual count (1) but nowhere the required count — no character
'2' occurs in it. -/
theorem C5_message_counterexample :
    interpolate_discount_rate (fun _ _ => 0) [⟨some 3, some 7⟩] 5 =
      .error "Not enough points to build curve after cleaning: 1 rows" ∧
    '2' ∉ "Not enough points to build curve after cleaning: 1 rows".data := by
  constructor
  · have h1 : (cleanCurve [(⟨some 3, some 7⟩ : CurveRow)]).length = 1 := by decide
    simp only [interpolate_discount_rate, h1]
    rw [if_pos (by norm_num)]
    rfl
  · decide

/-- Claim C5 amended: `interpolate_discount_rate` raises an
insufficient-curve-data error if and only if fewer than 2 points remain after
cleaning, and the error message states the actual clean-point count (the
required count of 2 is implied by "Not enough" but not stated numerically);
it never returns a value in that case. -/
theorem C5_insufficient_curve_error (spline : List (ℚ × ℚ) → ℚ → ℚ)
    (rows : List CurveRow) (target_dte : ℚ) :
    ((∃ m, interpolate_discount_rate spline rows target_dte = .error m) ↔
      (cleanCurve rows).length < 2) ∧
    ((cleanCurve rows).length < 2 →
      interpolate_discount_rate spline rows target_dte =
        .error ("Not enough points to build curve after cleaning: " ++
          toString (cleanCurve rows).length ++ " rows")) := by
  have hmsg : (cleanCurve rows).length < 2 →
      interpolate_discount_rate spline rows target_dte =
        .error ("Not enough points to build curve after cleaning: " ++
          toString (cleanCurve rows).length ++ " rows") := by
    intro h
    simp only [interpolate_discount_rate]
    rw [if_pos h]
  refine ⟨⟨?_, fun h => ⟨_, hmsg h⟩⟩, hmsg⟩
  rintro ⟨m, hm⟩
  by_contra h
  simp only [interpolate_discount_rate] at hm
  rw [if_neg h] at hm
  split_ifs at hm

/-- Concrete instance of the amended C5: an all-missing curve raises with the
count-bearing message. -/
theorem C5_insufficient_curve_error_witness :
    interpolate_discount_rate (fun _ _ => 0) [⟨none, none⟩, ⟨some 0, some 4⟩] 3 =
      .error ("Not enough points to build curve after cleaning: " ++
        toString (cleanCurve [(⟨none, none⟩ : CurveRow), ⟨some 0, some 4⟩]).length ++
        " rows") :=
  (C5_insufficient_curve_error (fun _ _ => 0) [⟨none, none⟩, ⟨some 0, some 4⟩] 3).2
    (by decide)

/-! ## Claim C8: the orchestrator's two quote gates -/

/-- Claim C8: `analyze_stir_contract` enforces two separate ≥5-quote gates —
it raises a hard insufficient-market-data error when fewer than 5 quotes
survive the settlement floor before implied-vol computation, and again when
fewer than 5 quotes have strictly positive implied volatility after the
sentinel filter; only when both gates pass does SABR calibration proceed (the
result is then exactly the calibration on the surviving strikes and vols). -/
theorem C8_quote_gates (splineEval : List ℚ → List ℚ → ℚ → ℚ)
    (ln2n : ℚ → ℚ → ℚ → ℚ → ℚ → ℚ)
    (sabrFit : ℚ → ℚ → ℚ → List ℚ → List ℚ → ℚ × ℚ × ℚ)
    (solver : IvSolver) (opt_rows : List OptionQuote)
    (fut_settle tau rfr min_settlement_price : ℚ) :
    ((settleFiltered opt_rows min_settlement_price).length < 5 →
      analyze_stir_contract splineEval ln2n sabrFit solver opt_rows
          fut_settle tau rfr min_settlement_price =
        .error ("Insufficient options: only " ++
          toString (settleFiltered opt_rows min_settlement_price).length ++
          " with settlement >= " ++ toString min_settlement_price)) ∧
    (5 ≤ (settleFiltered opt_rows min_settlement_price).length →
      (ivFiltered solver (settleFiltered opt_rows min_settlement_price)
          fut_settle tau rfr).length < 5 →
      analyze_stir_contract splineEval ln2n sabrFit solver opt_rows
          fut_settle tau rfr min_settlement_price =
        .error "Insufficient options after IV calculation") ∧
    (5 ≤ (settleFiltered opt_rows min_settlement_price).length →
      5 ≤ (ivFiltered solver (settleFiltered opt_rows min_settlement_price)
          fut_settle tau rfr).length →
      analyze_stir_contract splineEval ln2n sabrFit solver opt_rows
          fut_settle tau rfr min_settlement_price =
        calibrate_sabr splineEval ln2n sabrFit fut_settle
          ((ivFiltered solver (settleFiltered opt_rows min_settlement_price)
              fut_settle tau rfr).map fun p => p.1.strike)
          ((ivFiltered solver (settleFiltered opt_rows min_settlement_price)
              fut_settle tau rfr).map fun p => p.2) tau rfr (1 / 2)) := by
  refine ⟨?_, ?_, ?_⟩
  · intro h1
    simp only [analyze_stir_contract]
    rw [if_pos h1]
  · intro h1 h2
    simp only [analyze_stir_contract]
    rw [if_neg (by omega), if_pos h2]
  · intro h1 h2
    simp only [analyze_stir_contract]
    rw [if_neg (by omega), if_neg (by omega)]

/-- Concrete instances of C8: an empty chain trips the first gate, five
sentinel-zero vols trip the second, and five positive vols reach
calibration. -/
theorem C8_quote_gates_witness :
    analyze_stir_contract (fun _ _ _ => 0) (fun _ _ _ _ _ => 0)
        (fun _ _ _ _ _ => (0, 0, 0)) (fun _ _ _ _ _ _ => some 1) [] 1 1 0 1 =
      .error ("Insufficient options: only " ++
        toString (settleFiltered ([] : List OptionQuote) 1).length ++
        " with settlement >= " ++ toString (1 : ℚ)) ∧
    analyze_stir_contract (fun _ _ _ => 0) (fun _ _ _ _ _ => 0)
        (fun _ _ _ _ _ => (0, 0, 0)) (fun _ _ _ _ _ _ => none)
        [⟨1, "call", 1⟩, ⟨2, "call", 1⟩, ⟨3, "call", 1⟩, ⟨4, "call", 1⟩, ⟨5, "call", 1⟩]
        1 1 0 1 =
      .error "Insufficient options after IV calculation" ∧
    analyze_stir_contract (fun _ _ _ => 0) (fun _ _ _ _ _ => 0)
        (fun _ _ _ _ _ => (0, 0, 0)) (fun _ _ _ _ _ _ => some 1)
        [⟨1, "call", 1⟩, ⟨2, "call", 1⟩, ⟨3, "call", 1⟩, ⟨4, "call", 1⟩, ⟨5, "call", 1⟩]
        1 1 0 1 =
      calibrate_sabr (fun _ _ _ => 0) (fun _ _ _ _ _ => 0) (fun _ _ _ _ _ => (0, 0, 0)) 1
        ((ivFiltered (fun _ _ _ _ _ _ => some 1)
            (settleFiltered
              [⟨1, "call", 1⟩, ⟨2, "call", 1⟩, ⟨3, "call", 1⟩, ⟨4, "call", 1⟩,
                ⟨5, "call", 1⟩] 1) 1 1 0).map fun p => p.1.strike)
        ((ivFiltered (fun _ _ _ _ _ _ => some 1)
            (settleFiltered
              [⟨1, "call", 1⟩, ⟨2, "call", 1⟩, ⟨3, "call", 1⟩, ⟨4, "call", 1⟩,
                ⟨5, "call", 1⟩] 1) 1 1 0).map fun p => p.2) 1 0 (1 / 2) := by
  refine ⟨?_, ?_, ?_⟩
  · exact (C8_quote_gates (fun _ _ _ => 0) (fun _ _ _ _ _ => 0)
      (fun _ _ _ _ _ => (0, 0, 0)) (fun _ _ _ _ _ _ => some 1) [] 1 1 0 1).1
      (by decide)
  · exact (C8_quote_gates (fun _ _ _ => 0) (fun _ _ _ _ _ => 0)
      (fun _ _ _ _ _ => (0, 0, 0)) (fun _ _ _ _ _ _ => none)
      [⟨1, "call", 1⟩, ⟨2, "call", 1⟩, ⟨3, "call", 1⟩, ⟨4, "call", 1⟩, ⟨5, "call", 1⟩]
      1 1 0 1).2.1 (by decide) (by decide)
  · exact (C8_quote_gates (fun _ _ _ => 0) (fun _ _ _ _ _ => 0)
      (fun _ _ _ _ _ => (0, 0, 0)) (fun _ _ _ _ _ _ => some 1)
      [⟨1, "call", 1⟩, ⟨2, "call", 1⟩, ⟨3, "call", 1⟩, ⟨4, "call", 1⟩, ⟨5, "call", 1⟩]
      1 1 0 1).2.2 (by decide)
      (by norm_num [ivFiltered, withImpliedVols, calculate_implied_vol, settleFiltered,
        List.filter])

/-! ## Claim C10: time to expiry without an ordering check -/

/-- Validity of a parsed date: exactly what `datetime.date` accepts. -/
def ValidDate (dt : Date) : Prop :=
  1 ≤ dt.year ∧ 1 ≤ dt.month ∧ dt.month ≤ 12 ∧ 1 ≤ dt.day ∧
    dt.day ≤ daysInMonth dt.year dt.month

/-- A successfully parsed date is a valid calendar date. -/
theorem parseDate_valid {s : String} {dt : Date} (h : parseDate s = some dt) :
    ValidDate dt := by
  simp only [parseDate] at h
  split_ifs at h with h1 h2
  · cases h
    exact ⟨h2.1, h2.2.1, h2.2.2.1, h2.2.2.2.1, h2.2.2.2.2⟩

/-- Step identity for the month prefix sums, for months 1 through 12. -/
theorem daysBeforeMonth_succ (y m : ℕ) (h : 1 ≤ m) :
    daysBeforeMonth y (m + 1) = daysBeforeMonth y m + daysInMonth y m := by
  have : ¬ m = 0 := by omega
  simp [daysBeforeMonth, this]

/-- The month prefix sums are monotone. -/
theorem daysBeforeMonth_mono (y : ℕ) {m m2 : ℕ} (h : m ≤ m2) :
    daysBeforeMonth y m ≤ daysBeforeMonth y m2 := by
  induction m2 with
  | zero => simp_all
  | succ k ih =>
      rcases Nat.lt_or_ge m (k + 1) with hk | hk
      · calc daysBeforeMonth y m ≤ daysBeforeMonth y k := ih (by omega)
          _ ≤ daysBeforeMonth y (k + 1) := by
              simp only [daysBeforeMonth]
              exact Nat.le_add_right _ _
      · have he : m = k + 1 := by omega
        rw [he]

/-- The whole year's prefix sum evaluates to the year length. -/
theorem daysBeforeMonth_total (y : ℕ) :
    daysBeforeMonth y 13 = daysInYear y := by
  cases h : isLeapYear y <;>
    simp [daysBeforeMonth, daysInMonth, daysInYear, h]

/-- A valid month/day offset stays within the year length. -/
theorem dayOfYear_le (y m d : ℕ) (hm1 : 1 ≤ m) (hm2 : m ≤ 12) (_hd1 : 1 ≤ d)
    (hd2 : d ≤ daysInMonth y m) :
    daysBeforeMonth y m + d ≤ daysInYear y := by
  have h1 : daysBeforeMonth y m + d ≤ daysBeforeMonth y (m + 1) := by
    rw [daysBeforeMonth_succ y m hm1]
    omega
  have h2 : daysBeforeMonth y (m + 1) ≤ daysBeforeMonth y 13 :=
    daysBeforeMonth_mono y (by omega)
  rw [daysBeforeMonth_total] at h2
  omega

/-- The year prefix sums are monotone. -/
theorem daysBeforeYear_mono {y y2 : ℕ} (h : y ≤ y2) :
    daysBeforeYear y ≤ daysBeforeYear y2 := by
  induction y2 with
  | zero => simp_all
  | succ k ih =>
      rcases Nat.lt_or_ge y (k + 1) with hk | hk
      · calc daysBeforeYear y ≤ daysBeforeYear k := ih (by omega)
          _ ≤ daysBeforeYear (k + 1) := by
              simp only [daysBeforeYear]
              exact Nat.le_add_right _ _
      · have he : y = k + 1 := by omega
        rw [he]

/-- Day numbers respect calendar order: an earlier valid date has a strictly
smaller ordinal. -/
theorem toOrdinal_lt {a b : Date} (ha : ValidDate a) (hb : ValidDate b)
    (h : dateLt a b) : toOrdinal a < toOrdinal b := by
  obtain ⟨hay, ham1, ham2, had1, had2⟩ := ha
  obtain ⟨hby, hbm1, hbm2, hbd1, hbd2⟩ := hb
  unfold toOrdinal
  rcases h with hy | ⟨hy, hm | ⟨hm, hd⟩⟩
  · have h1 : daysBeforeMonth a.year a.month + a.day ≤ daysInYear a.year :=
      dayOfYear_le _ _ _ ham1 ham2 had1 had2
    have h2 : daysBeforeYear a.year + daysInYear a.year = daysBeforeYear (a.year + 1) := by
      simp [daysBeforeYear]
    have h3 : daysBeforeYear (a.year + 1) ≤ daysBeforeYear b.year :=
      daysBeforeYear_mono (by omega)
    omega
  · rw [hy]
    have h1 : daysBeforeMonth b.year a.month + a.day ≤
        daysBeforeMonth b.year (a.month + 1) := by
      rw [daysBeforeMonth_succ _ _ ham1]
      have : daysInMonth a.year a.month = daysInMonth b.year a.month := by rw [hy]
      omega
    have h2 : daysBeforeMonth b.year (a.month + 1) ≤ daysBeforeMonth b.year b.month :=
      daysBeforeMonth_mono _ (by omega)
    omega
  · rw [hy, hm]
    omega

/-- Claim C10: `calculate_time_to_expiry` performs no ordering check — for
every pair of parseable YYYYMMDD dates it returns the signed day difference
(expiry − start) together with that day count divided by 365.0, so an expiry
before the start yields a negative day count and a negative year fraction
instead of an error. -/
theorem C10_calculate_time_to_expiry (start_s expiry_s : String) (ds de : Date)
    (hs : parseDate start_s = some ds) (he : parseDate expiry_s = some de) :
    calculate_time_to_expiry start_s expiry_s =
      some ((toOrdinal de : ℤ) - (toOrdinal ds : ℤ),
        (((toOrdinal de : ℤ) - (toOrdinal ds : ℤ) : ℤ) : ℚ) / 365) ∧
    (dateLt de ds →
      (toOrdinal de : ℤ) - (toOrdinal ds : ℤ) < 0 ∧
      (((toOrdinal de : ℤ) - (toOrdinal ds : ℤ) : ℤ) : ℚ) / 365 < 0) := by
  constructor
  · unfold calculate_time_to_expiry
    rw [hs, he]
  · intro hlt
    have h1 : toOrdinal de < toOrdinal ds :=
      toOrdinal_lt (parseDate_valid he) (parseDate_valid hs) hlt
    have h2 : (toOrdinal de : ℤ) - (toOrdinal ds : ℤ) < 0 := by
      have := Int.ofNat_lt.mpr h1
      omega
    refine ⟨h2, ?_⟩
    apply div_neg_of_neg_of_pos
    · exact_mod_cast h2
    · norm_num

/-- Concrete instance of C10: expiry 2025-01-01 before start 2026-01-05 gives
a negative day count and a negative year fraction. -/
theorem C10_calculate_time_to_expiry_witness :
    calculate_time_to_expiry "20260105" "20250101" =
      some ((toOrdinal ⟨2025, 1, 1⟩ : ℤ) - (toOrdinal ⟨2026, 1, 5⟩ : ℤ),
        (((toOrdinal ⟨2025, 1, 1⟩ : ℤ) - (toOrdinal ⟨2026, 1, 5⟩ : ℤ) : ℤ) : ℚ) / 365) ∧
    (toOrdinal ⟨2025, 1, 1⟩ : ℤ) - (toOrdinal ⟨2026, 1, 5⟩ : ℤ) < 0 ∧
    (((toOrdinal ⟨2025, 1, 1⟩ : ℤ) - (toOrdinal ⟨2026, 1, 5⟩ : ℤ) : ℤ) : ℚ) / 365 < 0 := by
  have h := C10_calculate_time_to_expiry "20260105" "20250101" ⟨2026, 1, 5⟩ ⟨2025, 1, 1⟩
    (by decide) (by decide)
  exact ⟨h.1, h.2 (by decide)⟩

/-! ## Claim C1: RND generation -/

/-- Index formula for the linspace grid. -/
theorem linspace_getD {a b : ℝ} {n i : ℕ} (h : i < n) :
    (linspace a b n).getD i 0 = a + i * ((b - a) / ((n : ℝ) - 1)) := by
  unfold linspace
  rw [List.getD_eq_getElem?_getD, List.getElem?_map, List.getElem?_range h]
  rfl

/-- The linspace grid has exactly the requested number of points. -/
theorem linspace_length (a b : ℝ) (n : ℕ) : (linspace a b n).length = n := by
  unfold linspace
  rw [List.length_map, List.length_range]

/-- Claim C1: for every valid grid resolution (at least 2 points),
`generate_rnd` returns a strike grid of exactly `grid_points` points running
from `min_strike` to `max_strike` with constant spacing (strictly increasing
in input price-space order when min_strike < max_strike), and a density array
equal to the discrete second derivative (np.gradient applied twice) of the
Black-76 call-price curve over that grid, multiplied by exp(rfr·tau). -/
theorem C1_generate_rnd (callPrice : SABRParameters ℝ → ℝ → ℝ)
    (p : SABRParameters ℝ) (min_strike max_strike : ℝ) (grid_points : ℕ)
    (h2 : 2 ≤ grid_points) :
    (generate_rnd callPrice p min_strike max_strike grid_points).1.length = grid_points ∧
    (generate_rnd callPrice p min_strike max_strike grid_points).1.getD 0 0 = min_strike ∧
    (generate_rnd callPrice p min_strike max_strike grid_points).1.getD
        (grid_points - 1) 0 = max_strike ∧
    (∀ i, i + 1 < grid_points →
      (generate_rnd callPrice p min_strike max_strike grid_points).1.getD (i + 1) 0 -
        (generate_rnd callPrice p min_strike max_strike grid_points).1.getD i 0 =
        (max_strike - min_strike) / ((grid_points : ℝ) - 1)) ∧
    (min_strike < max_strike → ∀ i, i + 1 < grid_points →
      (generate_rnd callPrice p min_strike max_strike grid_points).1.getD i 0 <
        (generate_rnd callPrice p min_strike max_strike grid_points).1.getD (i + 1) 0) ∧
    (generate_rnd callPrice p min_strike max_strike grid_points).2 =
      (npGradient
          (npGradient
            (((generate_rnd callPrice p min_strike max_strike grid_points).1).map
              (callPrice p))
            (generate_rnd callPrice p min_strike max_strike grid_points).1)
          (generate_rnd callPrice p min_strike max_strike grid_points).1).map
        (fun v => v * Real.exp (p.rfr * p.tau)) := by
  have hstep : (0 : ℝ) < (grid_points : ℝ) - 1 := by
    have : (2 : ℝ) ≤ (grid_points : ℝ) := by exact_mod_cast h2
    linarith
  have hne : ((grid_points : ℝ) - 1) ≠ 0 := ne_of_gt hstep
  refine ⟨?_, ?_, ?_, ?_, ?_, ?_⟩
  · simp [generate_rnd, linspace_length]
  · show (linspace min_strike max_strike grid_points).getD 0 0 = min_strike
    rw [linspace_getD (by omega)]
    simp
  · show (linspace min_strike max_strike grid_points).getD (grid_points - 1) 0 =
      max_strike
    rw [linspace_getD (by omega)]
    have hcast : ((grid_points - 1 : ℕ) : ℝ) = (grid_points : ℝ) - 1 := by
      have : 1 ≤ grid_points := by omega
      push_cast [this]
      ring
    rw [hcast]
    field_simp
  · intro i hi
    show (linspace min_strike max_strike grid_points).getD (i + 1) 0 -
        (linspace min_strike max_strike grid_points).getD i 0 = _
    rw [linspace_getD (by omega), linspace_getD (by omega)]
    push_cast
    ring
  · intro hlt i hi
    show (linspace min_strike max_strike grid_points).getD i 0 <
        (linspace min_strike max_strike grid_points).getD (i + 1) 0
    rw [linspace_getD (by omega), linspace_getD (by omega)]
    have hpos : (0 : ℝ) < (max_strike - min_strike) / ((grid_points : ℝ) - 1) :=
      div_pos (by linarith) hstep
    push_cast
    nlinarith
  · show (npGradient (npGradient ((linspace min_strike max_strike grid_points).map
        (callPrice p)) (linspace min_strike max_strike grid_points))
        (linspace min_strike max_strike grid_points)).map
        (fun v => v * Real.exp (p.tau * p.rfr)) = _
    rw [mul_comm p.tau p.rfr]
    rfl

/-- Concrete instance of C1: a 2-point grid from 0 to 1. -/
theorem C1_generate_rnd_witness :
    (generate_rnd (fun _ _ => 0) ⟨0, 0, 0, 0, 0, 0, 0, 0⟩ 0 1 2).1.length = 2 ∧
    (generate_rnd (fun _ _ => 0) ⟨0, 0, 0, 0, 0, 0, 0, 0⟩ 0 1 2).1.getD 0 0 = 0 ∧
    (generate_rnd (fun _ _ => 0) ⟨0, 0, 0, 0, 0, 0, 0, 0⟩ 0 1 2).1.getD 1 0 = 1 := by
  have h := C1_generate_rnd (fun _ _ => 0) ⟨0, 0, 0, 0, 0, 0, 0, 0⟩ 0 1 2 (by norm_num)
  exact ⟨h.1, h.2.1, h.2.2.1⟩
